import Mathlib

/-!
Verification of the document auto-fill extraction pipeline of `src/main.py`
(FastAPI backend "AI-Powered EU Funding Vetting API").

Python strings are modelled as `List Char` (a Python `str` is a sequence of
code points), bytes as `List (Fin 256)`.  The external parsing libraries
(PyPDF2, python-docx) are not part of the repository; their outcomes are
passed in as oracle parameters returning `Option`-values, where `none`
models the library call raising an exception (which the source catches).
`Char.toLower` models Python `str.lower` (ASCII range, which covers every
keyword and example in play).
-/

/-- A Python string: a sequence of code points. -/
abbrev Str := List Char

/-- A Python bytes object: a sequence of bytes. -/
abbrev Bytes := List (Fin 256)

/-- Coerce a Lean string literal to the `Str` model. -/
def strL (s : String) : Str := s.toList

/-- Whitespace test used by Python `str.strip()` / `str.split()`
(ASCII whitespace: space, tab, newline, carriage return, vertical tab, form feed). -/
def isWSChar (c : Char) : Bool :=
  c == ' ' || c == '\t' || c == '\n' || c == '\r' || c == '\x0b' || c == '\x0c'

/-- Python `s.lower()` (ASCII case folding). -/
def lowerCL (s : Str) : Str := s.map Char.toLower

/-- Python `s.strip()`: remove leading and trailing whitespace. -/
def stripWS (s : Str) : Str := List.rdropWhile isWSChar (List.dropWhile isWSChar s)

/-- Python `s.strip(chars)`: remove leading and trailing characters drawn from `cs`. -/
def stripChars (cs : List Char) (s : Str) : Str :=
  List.rdropWhile (fun c => c ∈ cs) (List.dropWhile (fun c => c ∈ cs) s)

/-- Helper for `splitOnC`: accumulate the current piece (reversed) while scanning. -/
def splitOnCAux (sep : Char) : Str → Str → List Str
  | [], acc => [acc.reverse]
  | c :: rest, acc =>
    if c = sep then acc.reverse :: splitOnCAux sep rest []
    else splitOnCAux sep rest (c :: acc)

/-- Python `s.split(sep)` for a one-character separator: keeps empty pieces,
`"".split(sep) == [""]`. -/
def splitOnC (sep : Char) (s : Str) : List Str := splitOnCAux sep s []

/-- Helper for `splitWS`: accumulate the current word (reversed) while scanning. -/
def splitWSAux : Str → Str → List Str
  | [], acc => if acc.isEmpty then [] else [acc.reverse]
  | c :: rest, acc =>
    if isWSChar c then
      if acc.isEmpty then splitWSAux rest [] else acc.reverse :: splitWSAux rest []
    else splitWSAux rest (c :: acc)

/-- Python `s.split()` (no argument): split on runs of whitespace, no empty pieces. -/
def splitWS (s : Str) : List Str := splitWSAux s []

/-- Does `needle` occur at the start of the second argument? -/
def leadsWith : Str → Str → Bool
  | [], _ => true
  | _ :: _, [] => false
  | a :: as, b :: bs => a == b && leadsWith as bs

/-- Python `needle in hay`: substring containment. -/
def occursIn (needle : Str) : Str → Bool
  | [] => needle.isEmpty
  | c :: t => leadsWith needle (c :: t) || occursIn needle t

/-- Python `s.endswith(suffix)`. -/
def trailsWith (s suffix : Str) : Bool := leadsWith suffix.reverse s.reverse

/-- Strict lexicographic code-point order on strings (Python `<` on `str`). -/
def ltCL : Str → Str → Bool
  | [], [] => false
  | [], _ :: _ => true
  | _ :: _, [] => false
  | a :: as, b :: bs => a < b || (a == b && ltCL as bs)

/-- Insert into a `ltCL`-sorted list. -/
def insertCL (x : Str) : List Str → List Str
  | [] => [x]
  | y :: l => if ltCL x y then x :: y :: l else y :: insertCL x l

/-- Insertion sort by `ltCL`; models Python `sorted` on a list of strings. -/
def sortCL (l : List Str) : List Str := l.foldr insertCL []

/-- `main.py` `_extract_sentences`: replace carriage returns by spaces, split on
line breaks, split each line on the literal period, strip each candidate, keep
the non-empty ones (the nested loop appends in left-to-right order). -/
def extractSentences (text : Str) : List Str :=
  (splitOnC '\n' (text.map fun c => if c = '\r' then ' ' else c)).flatMap
    fun seg => (splitOnC '.' seg).filterMap fun s0 =>
      if 0 < (stripWS s0).length then some (stripWS s0) else none

/-- The Segmenter as worded by the specification (§4.2): normalize carriage
returns to spaces; split on line breaks; split each line on the period; trim
whitespace from each candidate; discard empty candidates; preserve order. -/
def segmentSpec (text : Str) : List Str :=
  (splitOnC '\n' (text.map fun c => if c = '\r' then ' ' else c)).flatMap
    fun line => ((splitOnC '.' line).map stripWS).filter fun s => !s.isEmpty

/-- `main.py` `_find_section`: first sentence whose lowercased text contains any
keyword as a substring, returned stripped; `none` when no sentence matches. -/
def findSection (sentences : List Str) (keywords : List Str) : Option Str :=
  (sentences.find? fun s => keywords.any fun k => occursIn k (lowerCL s)).map stripWS

/-- q2 keyword set (impact). -/
def kwQ2 : List Str := [strL "impact", strL "societal", strL "environment", strL "climate", strL "economic"]

/-- q3 keyword set (TRL). -/
def kwQ3 : List Str := [strL "trl", strL "technology readiness"]

/-- q4 keyword set (market/customers). -/
def kwQ4 : List Str := [strL "market", strL "customer", strL "users", strL "clients", strL "segment"]

/-- q5 keyword set (consortium/partners). -/
def kwQ5 : List Str := [strL "partner", strL "consortium", strL "university", strL "research", strL "industry partner"]

/-- q6 keyword set (size/country). -/
def kwQ6 : List Str := [strL "sme", strL "startup", strL "large", strL "employees", strL "country"]

/-- q7 keyword set (budget/timeline). -/
def kwQ7 : List Str := [strL "budget", strL "timeline", strL "month", strL "year", strL "milestone", strL "€", strL "eur"]

/-- q8 keyword set (prior funding). -/
def kwQ8 : List Str := [strL "grant", strL "funding", strL "h2020", strL "horizon", strL "eic", strL "life"]

/-- q10 keyword set (risks). -/
def kwQ10 : List Str := [strL "risk", strL "challenge", strL "mitigate", strL "uncertainty"]

/-- The q9 fixed vocabulary from `main.py`. -/
def vocabQ9 : List Str :=
  [strL "ai", strL "ml", strL "iot", strL "robotics", strL "space", strL "climate",
   strL "manufacturing", strL "biotech", strL "energy", strL "software"]

/-- `main.py` q9 inner loops: over the first 50 sentences, over each
whitespace-token, strip `,;()` from the ends, lowercase, keep the tokens that
are in the fixed vocabulary (appended in scan order). -/
def q9Hits (sentences : List Str) : List Str :=
  (sentences.take 50).flatMap fun s =>
    (splitWS s).filterMap fun token =>
      let t := lowerCL (stripChars [',', ';', '(', ')'] token)
      if t ∈ vocabQ9 then some t else none

/-- Helper for `distinctKeep`: drop elements already seen. -/
def distinctAux : List Str → List Str → List Str
  | [], _ => []
  | a :: l, seen => if a ∈ seen then distinctAux l seen else a :: distinctAux l (a :: seen)

/-- Distinct elements of a list, first occurrences kept (models Python `set`,
whose enumeration is immediately sorted in the source). -/
def distinctKeep (l : List Str) : List Str := distinctAux l []

/-- `main.py` q9 answer: `", ".join(sorted(set(kws))[:5])` when any hit exists. -/
def q9Answer (sentences : List Str) : Option Str :=
  if q9Hits sentences = [] then none
  else some (List.intercalate (strL ", ") ((sortCL (distinctKeep (q9Hits sentences))).take 5))

/-- `main.py` `summary`: `" ".join(sentences[:3])[:600]`. -/
def summaryOf (sentences : List Str) : Str :=
  (List.intercalate [' '] (sentences.take 3)).take 600

/-- `main.py` q1: `summary or (sentences[0] if sentences else "")`. -/
def q1Answer (sentences : List Str) : Str :=
  if summaryOf sentences ≠ [] then summaryOf sentences
  else match sentences with
       | s :: _ => s
       | [] => []

/-- One entry of the answers dict: present exactly when the slot value is `some`. -/
def optEntry (k : String) (o : Option Str) : List (String × Str) :=
  match o with
  | some v => [(k, v)]
  | none => []

/-- The answers dict of `extract_answers_from_text`, as an association list in
Python dict insertion order: q1 unconditionally, then q2..q10 as found. -/
def answersOf (sentences : List Str) : List (String × Str) :=
  ("q1", q1Answer sentences) ::
  (optEntry "q2" (findSection sentences kwQ2) ++
   optEntry "q3" (findSection sentences kwQ3) ++
   optEntry "q4" (findSection sentences kwQ4) ++
   optEntry "q5" (findSection sentences kwQ5) ++
   optEntry "q6" (findSection sentences kwQ6) ++
   optEntry "q7" (findSection sentences kwQ7) ++
   optEntry "q8" (findSection sentences kwQ8) ++
   optEntry "q9" (q9Answer sentences) ++
   optEntry "q10" (findSection sentences kwQ10))

/-- `main.py` `extract_answers_from_text`: the filled answers (in dict insertion
order, as `InterviewAnswer(question_id, answer)` pairs) and the summary. -/
def extractAnswersFromText (text : Str) : List (String × Str) × Str :=
  (answersOf (extractSentences text), summaryOf (extractSentences text))

/-- Is a byte a UTF-8 continuation byte (`0x80..0xBF`)? -/
def isContByte (b : Fin 256) : Bool := 0x80 ≤ b.val && b.val ≤ 0xBF

/-- Strict UTF-8 decoding (Python `bytes.decode("utf-8")`): `none` on any
invalid, overlong, truncated, out-of-range or surrogate sequence. -/
def decodeUtf8 : Bytes → Option Str
  | [] => some []
  | b :: rest =>
    if b.val < 0x80 then
      (decodeUtf8 rest).map fun s => Char.ofNat b.val :: s
    else if 0xC2 ≤ b.val && b.val ≤ 0xDF then
      match rest with
      | b2 :: rest2 =>
        if isContByte b2 then
          (decodeUtf8 rest2).map fun s =>
            Char.ofNat ((b.val - 0xC0) * 0x40 + (b2.val - 0x80)) :: s
        else none
      | [] => none
    else if 0xE0 ≤ b.val && b.val ≤ 0xEF then
      match rest with
      | b2 :: b3 :: rest3 =>
        if (if b.val = 0xE0 then 0xA0 ≤ b2.val && b2.val ≤ 0xBF
            else if b.val = 0xED then 0x80 ≤ b2.val && b2.val ≤ 0x9F
            else isContByte b2) && isContByte b3 then
          (decodeUtf8 rest3).map fun s =>
            Char.ofNat ((b.val - 0xE0) * 0x1000 + (b2.val - 0x80) * 0x40 + (b3.val - 0x80)) :: s
        else none
      | _ => none
    else if 0xF0 ≤ b.val && b.val ≤ 0xF4 then
      match rest with
      | b2 :: b3 :: b4 :: rest4 =>
        if (if b.val = 0xF0 then 0x90 ≤ b2.val && b2.val ≤ 0xBF
            else if b.val = 0xF4 then 0x80 ≤ b2.val && b2.val ≤ 0x8F
            else isContByte b2) && isContByte b3 && isContByte b4 then
          (decodeUtf8 rest4).map fun s =>
            Char.ofNat ((b.val - 0xF0) * 0x40000 + (b2.val - 0x80) * 0x1000 +
                        (b3.val - 0x80) * 0x40 + (b4.val - 0x80)) :: s
        else none
      | _ => none
    else none

/-- Latin-1 decoding (Python `bytes.decode("latin-1")`): total, each byte is the
code point of one character. -/
def decodeLatin1 (data : Bytes) : Str := data.map fun b => Char.ofNat b.val

/-- Decode a little- or big-endian sequence of UTF-16 code units, combining
surrogate pairs; `none` on odd length or lone surrogates. -/
def decodeUtf16Units (littleEndian : Bool) : Bytes → Option Str
  | [] => some []
  | [_] => none
  | b1 :: b2 :: rest =>
    let u := if littleEndian then b1.val + 256 * b2.val else b2.val + 256 * b1.val
    if 0xD800 ≤ u && u ≤ 0xDBFF then
      match rest with
      | c1 :: c2 :: rest2 =>
        let v := if littleEndian then c1.val + 256 * c2.val else c2.val + 256 * c1.val
        if 0xDC00 ≤ v && v ≤ 0xDFFF then
          (decodeUtf16Units littleEndian rest2).map fun s =>
            Char.ofNat (0x10000 + (u - 0xD800) * 0x400 + (v - 0xDC00)) :: s
        else none
      | _ => none
    else if 0xDC00 ≤ u && u ≤ 0xDFFF then none
    else (decodeUtf16Units littleEndian rest).map fun s => Char.ofNat u :: s

/-- Python `bytes.decode("utf-16")`: honour a BOM when present (stripping it),
default to little-endian otherwise. -/
def decodeUtf16 : Bytes → Option Str
  | b1 :: b2 :: rest =>
    if b1.val = 0xFF && b2.val = 0xFE then decodeUtf16Units true rest
    else if b1.val = 0xFE && b2.val = 0xFF then decodeUtf16Units false rest
    else decodeUtf16Units true (b1 :: b2 :: rest)
  | l => decodeUtf16Units true l

/-- The encodings tried by the `_guess_text` fallback loop, in source order. -/
inductive Enc where
  | utf8
  | latin1
  | utf16
deriving DecidableEq

/-- One `data.decode(enc)` attempt: `none` models the decode raising. -/
def tryDecode (e : Enc) (data : Bytes) : Option Str :=
  match e with
  | Enc.utf8 => decodeUtf8 data
  | Enc.latin1 => some (decodeLatin1 data)
  | Enc.utf16 => decodeUtf16 data

/-- The `for enc in [...]` loop of `_guess_text`: return the first successful
decode, or the empty string after the loop when every attempt raised. -/
def decodeLoop (data : Bytes) : List Enc → Str
  | [] => []
  | e :: rest =>
    match tryDecode e data with
    | some s => s
    | none => decodeLoop data rest

/-- The encoding fallback of `_guess_text`: UTF-8, then Latin-1, then UTF-16. -/
def fallbackDecode (data : Bytes) : Str :=
  decodeLoop data [Enc.utf8, Enc.latin1, Enc.utf16]

/-- `main.py` `_safe_text_from_pdf`.  `pdfLib data` is the outcome of
`PdfReader(BytesIO(data)).pages`: `none` when the library raises (whole attempt
fails, return `""`); otherwise one entry per page, where `none` models
`page.extract_text()` raising (the page is skipped) and `some s` the appended
text (`extract_text() or ""` collapses a `None` page text into `""`).  The page
texts are joined with a newline. -/
def safeTextFromPdf (pdfLib : Bytes → Option (List (Option Str))) (data : Bytes) : Str :=
  match pdfLib data with
  | none => []
  | some pages => List.intercalate ['\n'] (pages.filterMap id)

/-- `main.py` `_safe_text_from_docx`.  `docxLib data` is the paragraph-text list
of `docx.Document(BytesIO(data))`; `none` when the library raises (return `""`).
The paragraph texts are joined with a newline. -/
def safeTextFromDocx (docxLib : Bytes → Option (List Str)) (data : Bytes) : Str :=
  match docxLib data with
  | none => []
  | some paras => List.intercalate ['\n'] paras

/-- `main.py` `_guess_text`: lowercase the filename; `.pdf` names go to the PDF
extractor, `.docx` names to the DOCX extractor, anything else to the sequential
encoding fallback. -/
def guessText (pdfLib : Bytes → Option (List (Option Str)))
    (docxLib : Bytes → Option (List Str)) (filename : Str) (data : Bytes) : Str :=
  let name := lowerCL filename
  if trailsWith name (strL ".pdf") then safeTextFromPdf pdfLib data
  else if trailsWith name (strL ".docx") then safeTextFromDocx docxLib data
  else fallbackDecode data

/-- `main.py` `upload_document` (the pipeline part; the best-effort database
read is discarded by the source and has no effect on the response): reject empty
uploads, reject when the guessed text is empty or strips to empty, otherwise
return the extracted answers and summary. -/
def uploadDocument (pdfLib : Bytes → Option (List (Option Str)))
    (docxLib : Bytes → Option (List Str)) (filename : Str) (data : Bytes) :
    Except String (List (String × Str) × Str) :=
  if data = [] then Except.error "Empty file uploaded"
  else
    let text := guessText pdfLib docxLib filename data
    if text = [] ∨ stripWS text = [] then
      Except.error "Could not extract text from file. Supported: PDF, DOCX, TXT"
    else Except.ok (extractAnswersFromText text)

/-- Looking a key up past a cons with a different key. -/
theorem lookup_cons_ne {β : Type} (k k' : String) (v : β) (l : List (String × β))
    (h : (k == k') = false) : List.lookup k ((k', v) :: l) = List.lookup k l := by
  simp [List.lookup, h]

/-- Looking a key up past an optional entry with a different key. -/
theorem lookup_optEntry_ne (k k' : String) (o : Option Str) (l : List (String × Str))
    (h : (k == k') = false) : List.lookup k (optEntry k' o ++ l) = List.lookup k l := by
  cases o <;> simp [optEntry, List.lookup, h]

/-- Looking a key up at its own optional entry, when it occurs nowhere later. -/
theorem lookup_optEntry_self (k : String) (o : Option Str) (l : List (String × Str))
    (h : List.lookup k l = none) : List.lookup k (optEntry k o ++ l) = o := by
  cases o <;> simp [optEntry, List.lookup, h]

/-- A lone optional entry with a different key never matches. -/
theorem lookup_optEntry_ne_single (k k' : String) (o : Option Str)
    (h : (k == k') = false) : List.lookup k (optEntry k' o) = none := by
  cases o <;> simp [optEntry, List.lookup, h]

/-- A lone optional entry with the same key is the lookup result. -/
theorem lookup_optEntry_single (k : String) (o : Option Str) :
    List.lookup k (optEntry k o) = o := by
  cases o <;> simp [optEntry, List.lookup]

/-- `q1` lookup in the assembled answers. -/
theorem lookup_q1 (s : List Str) : List.lookup "q1" (answersOf s) = some (q1Answer s) := by
  simp [answersOf, List.lookup]

/-- `q2` lookup in the assembled answers. -/
theorem lookup_q2 (s : List Str) : List.lookup "q2" (answersOf s) = findSection s kwQ2 := by
  rw [answersOf, lookup_cons_ne _ _ _ _ (by decide)]
  simp only [List.append_assoc]
  rw [lookup_optEntry_self]
  rw [lookup_optEntry_ne _ _ _ _ (by decide)]
  rw [lookup_optEntry_ne _ _ _ _ (by decide)]
  rw [lookup_optEntry_ne _ _ _ _ (by decide)]
  rw [lookup_optEntry_ne _ _ _ _ (by decide)]
  rw [lookup_optEntry_ne _ _ _ _ (by decide)]
  rw [lookup_optEntry_ne _ _ _ _ (by decide)]
  rw [lookup_optEntry_ne _ _ _ _ (by decide)]
  exact lookup_optEntry_ne_single _ _ _ (by decide)

/-- `q3` lookup in the assembled answers. -/
theorem lookup_q3 (s : List Str) : List.lookup "q3" (answersOf s) = findSection s kwQ3 := by
  rw [answersOf, lookup_cons_ne _ _ _ _ (by decide)]
  simp only [List.append_assoc]
  rw [lookup_optEntry_ne _ _ _ _ (by decide)]
  rw [lookup_optEntry_self]
  rw [lookup_optEntry_ne _ _ _ _ (by decide)]
  rw [lookup_optEntry_ne _ _ _ _ (by decide)]
  rw [lookup_optEntry_ne _ _ _ _ (by decide)]
  rw [lookup_optEntry_ne _ _ _ _ (by decide)]
  rw [lookup_optEntry_ne _ _ _ _ (by decide)]
  rw [lookup_optEntry_ne _ _ _ _ (by decide)]
  exact lookup_optEntry_ne_single _ _ _ (by decide)

/-- `q4` lookup in the assembled answers. -/
theorem lookup_q4 (s : List Str) : List.lookup "q4" (answersOf s) = findSection s kwQ4 := by
  rw [answersOf, lookup_cons_ne _ _ _ _ (by decide)]
  simp only [List.append_assoc]
  rw [lookup_optEntry_ne _ _ _ _ (by decide)]
  rw [lookup_optEntry_ne _ _ _ _ (by decide)]
  rw [lookup_optEntry_self]
  rw [lookup_optEntry_ne _ _ _ _ (by decide)]
  rw [lookup_optEntry_ne _ _ _ _ (by decide)]
  rw [lookup_optEntry_ne _ _ _ _ (by decide)]
  rw [lookup_optEntry_ne _ _ _ _ (by decide)]
  rw [lookup_optEntry_ne _ _ _ _ (by decide)]
  exact lookup_optEntry_ne_single _ _ _ (by decide)

/-- `q5` lookup in the assembled answers. -/
theorem lookup_q5 (s : List Str) : List.lookup "q5" (answersOf s) = findSection s kwQ5 := by
  rw [answersOf, lookup_cons_ne _ _ _ _ (by decide)]
  simp only [List.append_assoc]
  rw [lookup_optEntry_ne _ _ _ _ (by decide)]
  rw [lookup_optEntry_ne _ _ _ _ (by decide)]
  rw [lookup_optEntry_ne _ _ _ _ (by decide)]
  rw [lookup_optEntry_self]
  rw [lookup_optEntry_ne _ _ _ _ (by decide)]
  rw [lookup_optEntry_ne _ _ _ _ (by decide)]
  rw [lookup_optEntry_ne _ _ _ _ (by decide)]
  rw [lookup_optEntry_ne _ _ _ _ (by decide)]
  exact lookup_optEntry_ne_single _ _ _ (by decide)

/-- `q6` lookup in the assembled answers. -/
theorem lookup_q6 (s : List Str) : List.lookup "q6" (answersOf s) = findSection s kwQ6 := by
  rw [answersOf, lookup_cons_ne _ _ _ _ (by decide)]
  simp only [List.append_assoc]
  rw [lookup_optEntry_ne _ _ _ _ (by decide)]
  rw [lookup_optEntry_ne _ _ _ _ (by decide)]
  rw [lookup_optEntry_ne _ _ _ _ (by decide)]
  rw [lookup_optEntry_ne _ _ _ _ (by decide)]
  rw [lookup_optEntry_self]
  rw [lookup_optEntry_ne _ _ _ _ (by decide)]
  rw [lookup_optEntry_ne _ _ _ _ (by decide)]
  rw [lookup_optEntry_ne _ _ _ _ (by decide)]
  exact lookup_optEntry_ne_single _ _ _ (by decide)

/-- `q7` lookup in the assembled answers. -/
theorem lookup_q7 (s : List Str) : List.lookup "q7" (answersOf s) = findSection s kwQ7 := by
  rw [answersOf, lookup_cons_ne _ _ _ _ (by decide)]
  simp only [List.append_assoc]
  rw [lookup_optEntry_ne _ _ _ _ (by decide)]
  rw [lookup_optEntry_ne _ _ _ _ (by decide)]
  rw [lookup_optEntry_ne _ _ _ _ (by decide)]
  rw [lookup_optEntry_ne _ _ _ _ (by decide)]
  rw [lookup_optEntry_ne _ _ _ _ (by decide)]
  rw [lookup_optEntry_self]
  rw [lookup_optEntry_ne _ _ _ _ (by decide)]
  rw [lookup_optEntry_ne _ _ _ _ (by decide)]
  exact lookup_optEntry_ne_single _ _ _ (by decide)

/-- `q8` lookup in the assembled answers. -/
theorem lookup_q8 (s : List Str) : List.lookup "q8" (answersOf s) = findSection s kwQ8 := by
  rw [answersOf, lookup_cons_ne _ _ _ _ (by decide)]
  simp only [List.append_assoc]
  rw [lookup_optEntry_ne _ _ _ _ (by decide)]
  rw [lookup_optEntry_ne _ _ _ _ (by decide)]
  rw [lookup_optEntry_ne _ _ _ _ (by decide)]
  rw [lookup_optEntry_ne _ _ _ _ (by decide)]
  rw [lookup_optEntry_ne _ _ _ _ (by decide)]
  rw [lookup_optEntry_ne _ _ _ _ (by decide)]
  rw [lookup_optEntry_self]
  rw [lookup_optEntry_ne _ _ _ _ (by decide)]
  exact lookup_optEntry_ne_single _ _ _ (by decide)

/-- `q9` lookup in the assembled answers. -/
theorem lookup_q9 (s : List Str) : List.lookup "q9" (answersOf s) = q9Answer s := by
  rw [answersOf, lookup_cons_ne _ _ _ _ (by decide)]
  simp only [List.append_assoc]
  rw [lookup_optEntry_ne _ _ _ _ (by decide)]
  rw [lookup_optEntry_ne _ _ _ _ (by decide)]
  rw [lookup_optEntry_ne _ _ _ _ (by decide)]
  rw [lookup_optEntry_ne _ _ _ _ (by decide)]
  rw [lookup_optEntry_ne _ _ _ _ (by decide)]
  rw [lookup_optEntry_ne _ _ _ _ (by decide)]
  rw [lookup_optEntry_ne _ _ _ _ (by decide)]
  rw [lookup_optEntry_self]
  exact lookup_optEntry_ne_single _ _ _ (by decide)

/-- `q10` lookup in the assembled answers. -/
theorem lookup_q10 (s : List Str) : List.lookup "q10" (answersOf s) = findSection s kwQ10 := by
  rw [answersOf, lookup_cons_ne _ _ _ _ (by decide)]
  simp only [List.append_assoc]
  rw [lookup_optEntry_ne _ _ _ _ (by decide)]
  rw [lookup_optEntry_ne _ _ _ _ (by decide)]
  rw [lookup_optEntry_ne _ _ _ _ (by decide)]
  rw [lookup_optEntry_ne _ _ _ _ (by decide)]
  rw [lookup_optEntry_ne _ _ _ _ (by decide)]
  rw [lookup_optEntry_ne _ _ _ _ (by decide)]
  rw [lookup_optEntry_ne _ _ _ _ (by decide)]
  rw [lookup_optEntry_ne _ _ _ _ (by decide)]
  exact lookup_optEntry_single _ _

/-- If `dropWhile` leaves a list unchanged, it also leaves any of its
prefixes unchanged. -/
theorem dropWhile_eq_self_of_pre {α : Type} {p : α → Bool} :
    ∀ {l l' : List α}, List.dropWhile p l = l → l' <+: l → List.dropWhile p l' = l' := by
  intro l l' h hp
  cases l' with
  | nil => simp
  | cons c t =>
    obtain ⟨r, hr⟩ := hp
    subst hr
    rw [List.cons_append] at h
    rw [List.dropWhile_cons] at h ⊢
    by_cases hc : p c
    · simp only [hc, if_true] at h
      have hle := (List.dropWhile_sublist (l := t ++ r) p).length_le
      rw [h] at hle
      simp at hle
    · simp [hc]

/-- Python `strip()` is idempotent. -/
theorem stripWS_idem (s : Str) : stripWS (stripWS s) = stripWS s := by
  unfold stripWS
  rw [dropWhile_eq_self_of_pre (List.dropWhile_idempotent isWSChar s)
        (List.rdropWhile_prefix isWSChar (List.dropWhile isWSChar s)),
      List.rdropWhile_idempotent]

/-- A string of whitespace only strips to the empty string. -/
theorem stripWS_of_all_ws {s : Str} (h : ∀ c ∈ s, isWSChar c = true) : stripWS s = [] := by
  unfold stripWS
  rw [List.dropWhile_eq_nil_iff.mpr h]
  simp

/-- The source's append-if-nonempty loop over stripped candidates equals
trimming every candidate and then discarding the empty ones. -/
theorem filterMap_strip (l : List Str) :
    (l.filterMap fun s0 => if 0 < (stripWS s0).length then some (stripWS s0) else none)
    = (l.map stripWS).filter fun s => !s.isEmpty := by
  induction l with
  | nil => rfl
  | cons a l ih =>
    cases hsa : stripWS a with
    | nil => simp [List.filterMap_cons, hsa, ih]
    | cons c t => simp [List.filterMap_cons, hsa, ih]

/-- C4: for every input text the segmenter returns exactly the sequence obtained
by replacing carriage returns with spaces, splitting on line breaks, splitting
each line on the literal period, trimming whitespace from each candidate and
discarding empty candidates, preserving order; consequently no returned fragment
is empty or whitespace-only. -/
theorem c4_segmenter_spec (t : Str) :
    extractSentences t = segmentSpec t ∧
    ∀ f ∈ extractSentences t, f ≠ [] ∧ stripWS f = f ∧ ¬∀ c ∈ f, isWSChar c = true := by
  constructor
  · unfold extractSentences segmentSpec
    simp only [filterMap_strip]
  · intro f hf
    unfold extractSentences at hf
    rw [List.mem_flatMap] at hf
    obtain ⟨seg, hseg, hf⟩ := hf
    rw [List.mem_filterMap] at hf
    obtain ⟨s0, hs0, hfs⟩ := hf
    by_cases h : 0 < (stripWS s0).length
    · rw [if_pos h] at hfs
      injection hfs with hfs
      subst hfs
      refine ⟨List.length_pos.mp h, stripWS_idem s0, fun hws => ?_⟩
      have h0 := stripWS_of_all_ws hws
      rw [stripWS_idem] at h0
      rw [h0] at h
      simp at h
    · rw [if_neg h] at hfs
      exact absurd hfs (by simp)

/-- C4 witness: the theorem applied at a concrete text and fragment. -/
theorem c4_segmenter_spec_witness :
    extractSentences (strL "A. B.\rC\nD.") = segmentSpec (strL "A. B.\rC\nD.") ∧
    (strL "A" ≠ [] ∧ stripWS (strL "A") = strL "A" ∧
     ¬∀ c ∈ strL "A", isWSChar c = true) :=
  ⟨(c4_segmenter_spec (strL "A. B.\rC\nD.")).1,
   (c4_segmenter_spec (strL "A. B.\rC\nD.")).2 (strL "A") (by decide)⟩

/-- C5: for each keyword slot (q2-q8, q10) the slot answer is the trimmed text
of the first fragment whose lowercased text contains some keyword of the slot as
a substring, and the slot is absent when no fragment matches; in particular the
text whose second fragment is "Our project targets climate adaptation" gives
exactly that as q2, and a text with no q3 keyword has no q3 key. -/
theorem c5_keyword_slots (t : Str) :
    List.lookup "q2" (extractAnswersFromText t).1
      = Option.map stripWS ((extractSentences t).find? fun s => kwQ2.any fun k => occursIn k (lowerCL s)) ∧
    List.lookup "q3" (extractAnswersFromText t).1
      = Option.map stripWS ((extractSentences t).find? fun s => kwQ3.any fun k => occursIn k (lowerCL s)) ∧
    List.lookup "q4" (extractAnswersFromText t).1
      = Option.map stripWS ((extractSentences t).find? fun s => kwQ4.any fun k => occursIn k (lowerCL s)) ∧
    List.lookup "q5" (extractAnswersFromText t).1
      = Option.map stripWS ((extractSentences t).find? fun s => kwQ5.any fun k => occursIn k (lowerCL s)) ∧
    List.lookup "q6" (extractAnswersFromText t).1
      = Option.map stripWS ((extractSentences t).find? fun s => kwQ6.any fun k => occursIn k (lowerCL s)) ∧
    List.lookup "q7" (extractAnswersFromText t).1
      = Option.map stripWS ((extractSentences t).find? fun s => kwQ7.any fun k => occursIn k (lowerCL s)) ∧
    List.lookup "q8" (extractAnswersFromText t).1
      = Option.map stripWS ((extractSentences t).find? fun s => kwQ8.any fun k => occursIn k (lowerCL s)) ∧
    List.lookup "q10" (extractAnswersFromText t).1
      = Option.map stripWS ((extractSentences t).find? fun s => kwQ10.any fun k => occursIn k (lowerCL s)) ∧
    List.lookup "q2" (extractAnswersFromText
        (strL "Intro line\nOur project targets climate adaptation. More text.")).1
      = some (strL "Our project targets climate adaptation") ∧
    List.lookup "q3" (extractAnswersFromText
        (strL "Intro line\nOur project targets climate adaptation. More text.")).1
      = none :=
  ⟨lookup_q2 _, lookup_q3 _, lookup_q4 _, lookup_q5 _, lookup_q6 _, lookup_q7 _,
   lookup_q8 _, lookup_q10 _, by decide, by decide⟩

/-- C6: the synopsis is the space-join of the first three fragments truncated to
600 characters, and q1 is that synopsis with fallback to the first fragment (or
the empty string) when the synopsis is empty; in particular fragments
A, B, C, D give q1 = "A B C" with no re-inserted periods. -/
theorem c6_synopsis_q1 (t : Str) :
    (extractAnswersFromText t).2
      = (List.intercalate [' '] ((extractSentences t).take 3)).take 600 ∧
    List.lookup "q1" (extractAnswersFromText t).1
      = some (if (extractAnswersFromText t).2 ≠ [] then (extractAnswersFromText t).2
              else (extractSentences t).headD []) ∧
    List.lookup "q1" (extractAnswersFromText (strL "A. B. C. D.")).1 = some (strL "A B C") ∧
    (extractAnswersFromText (strL "A. B. C. D.")).2 = strL "A B C" := by
  refine ⟨rfl, ?_, by decide, by decide⟩
  show List.lookup "q1" (answersOf (extractSentences t))
    = some (if summaryOf (extractSentences t) ≠ [] then summaryOf (extractSentences t)
            else (extractSentences t).headD [])
  rw [lookup_q1]
  cases extractSentences t <;> rfl

/-- C2: the q9 answer, when present, is the comma-space join of the first 5
alphabetically sorted distinct vocabulary hits collected token-wise (punctuation
`,;()` stripped, lowercased) over the first 50 fragments; in particular the text
"We use AI and IoT for robotics and Energy optimization." gives
"ai, energy, iot, robotics". -/
theorem c2_q9_vocabulary (t : Str) :
    List.lookup "q9" (extractAnswersFromText t).1
      = (if q9Hits (extractSentences t) = [] then none
         else some (List.intercalate (strL ", ")
           ((sortCL (distinctKeep (q9Hits (extractSentences t)))).take 5))) ∧
    List.lookup "q9" (extractAnswersFromText
        (strL "We use AI and IoT for robotics and Energy optimization.")).1
      = some (strL "ai, energy, iot, robotics") :=
  ⟨lookup_q9 _, by decide⟩

/-- C9: slot q1 is always present in the assembled answers, with the empty
string as its value when segmentation yields no fragments. -/
theorem c9_q1_always_present (t : Str) :
    (List.lookup "q1" (extractAnswersFromText t).1).isSome = true ∧
    (extractSentences t = [] → List.lookup "q1" (extractAnswersFromText t).1 = some []) := by
  constructor
  · show (List.lookup "q1" (answersOf (extractSentences t))).isSome = true
    rw [lookup_q1]
    rfl
  · intro h
    show List.lookup "q1" (answersOf (extractSentences t)) = some []
    rw [lookup_q1, h]
    rfl

/-- C9 witness: on the empty text there are no fragments and q1 is the empty
string. -/
theorem c9_q1_always_present_witness :
    List.lookup "q1" (extractAnswersFromText (strL "")).1 = some [] :=
  (c9_q1_always_present (strL "")).2 (by decide)

/-- C7: the extraction pipeline is a pure function of the decoded text; the
answer mapping and synopsis depend only on the fragment sequence (and the fixed
keyword tables), so identical fragments give identical results. -/
theorem c7_pipeline_deterministic (t t' : Str)
    (h : extractSentences t = extractSentences t') :
    extractAnswersFromText t = extractAnswersFromText t' := by
  unfold extractAnswersFromText
  rw [h]

/-- C7 witness: two different texts with the same fragments produce the same
answers and synopsis. -/
theorem c7_pipeline_deterministic_witness :
    extractAnswersFromText (strL "A.B.") = extractAnswersFromText (strL "A.\nB.") ∧
    strL "A.B." ≠ strL "A.\nB." :=
  ⟨c7_pipeline_deterministic _ _ (by decide), by decide⟩

/-- C1 (counterexample): for the filename "doc.pdf" and bytes that fail PDF
extraction entirely (the library raises, modelled by the oracle returning
`none`) but decode as UTF-8 to "hello", the decoder returns the empty string,
not the UTF-8 text: there is no fall-through to the encoding fallback. -/
theorem c1_pdf_no_fallthrough_cex :
    guessText (fun _ => none) (fun _ => none) (strL "doc.pdf")
        ([104, 101, 108, 108, 111] : Bytes) = [] ∧
    decodeUtf8 ([104, 101, 108, 108, 111] : Bytes) = some (strL "hello") ∧
    strL "hello" ≠ [] := by
  refine ⟨by decide, by decide, by decide⟩

/-- C1 (amended): the decoder dispatches on the lowercased filename: a `.pdf`
name returns the PDF extraction result unchanged (even when empty), a `.docx`
name the DOCX extraction result unchanged, and only a name matching neither
extension goes to the sequential encoding fallback (UTF-8, Latin-1, UTF-16,
first success). -/
theorem c1_decoder_dispatch_amended (pdfLib : Bytes → Option (List (Option Str)))
    (docxLib : Bytes → Option (List Str)) (filename : Str) (data : Bytes) :
    (trailsWith (lowerCL filename) (strL ".pdf") = true →
      guessText pdfLib docxLib filename data = safeTextFromPdf pdfLib data) ∧
    (trailsWith (lowerCL filename) (strL ".pdf") = false →
      trailsWith (lowerCL filename) (strL ".docx") = true →
      guessText pdfLib docxLib filename data = safeTextFromDocx docxLib data) ∧
    (trailsWith (lowerCL filename) (strL ".pdf") = false →
      trailsWith (lowerCL filename) (strL ".docx") = false →
      guessText pdfLib docxLib filename data = fallbackDecode data) := by
  refine ⟨fun h1 => ?_, fun h1 h2 => ?_, fun h1 h2 => ?_⟩
  · simp [guessText, h1]
  · simp [guessText, h1, h2]
  · simp [guessText, h1, h2]

/-- C1 (amended) witness: a `.PDF` name (case-insensitive) goes to the PDF
extractor; a `.txt` name goes to the encoding fallback. -/
theorem c1_decoder_dispatch_amended_witness :
    guessText (fun _ => some [some (strL "x")]) (fun _ => none) (strL "a.PDF") [] =
      safeTextFromPdf (fun _ => some [some (strL "x")]) [] ∧
    guessText (fun _ => none) (fun _ => none) (strL "b.txt") ([104] : Bytes) =
      fallbackDecode ([104] : Bytes) :=
  ⟨(c1_decoder_dispatch_amended _ _ _ _).1 (by decide),
   (c1_decoder_dispatch_amended _ _ _ _).2.2 (by decide) (by decide)⟩

/-- C8: the decoder is a total function whose failures degrade to empty output:
a failed whole-document PDF or DOCX parse yields the empty string, a partially
failed PDF parse yields the join of the surviving pages (failed pages skipped),
and every call falls into one of the three total branches. -/
theorem c8_decoder_failsoft (pdfLib : Bytes → Option (List (Option Str)))
    (docxLib : Bytes → Option (List Str)) (filename : Str) (data : Bytes) :
    (pdfLib data = none → safeTextFromPdf pdfLib data = []) ∧
    (docxLib data = none → safeTextFromDocx docxLib data = []) ∧
    (∀ pages, pdfLib data = some pages →
      safeTextFromPdf pdfLib data = List.intercalate ['\n'] (pages.filterMap id)) ∧
    (guessText pdfLib docxLib filename data = safeTextFromPdf pdfLib data ∨
     guessText pdfLib docxLib filename data = safeTextFromDocx docxLib data ∨
     guessText pdfLib docxLib filename data = fallbackDecode data) := by
  refine ⟨fun h => ?_, fun h => ?_, fun pages h => ?_, ?_⟩
  · simp [safeTextFromPdf, h]
  · simp [safeTextFromDocx, h]
  · simp [safeTextFromPdf, h]
  · by_cases h1 : trailsWith (lowerCL filename) (strL ".pdf")
    · exact Or.inl (by simp [guessText, h1])
    · by_cases h2 : trailsWith (lowerCL filename) (strL ".docx")
      · exact Or.inr (Or.inl (by simp [guessText, h1, h2]))
      · exact Or.inr (Or.inr (by simp [guessText, h1, h2]))

/-- C8 witness: failing oracles give the empty string; a partially failing PDF
gives the join of the surviving pages. -/
theorem c8_decoder_failsoft_witness :
    safeTextFromPdf (fun _ => none) [] = [] ∧
    safeTextFromDocx (fun _ => none) [] = [] ∧
    safeTextFromPdf (fun _ => some [some (strL "a"), none, some (strL "b")]) [] =
      List.intercalate ['\n'] ([some (strL "a"), none, some (strL "b")].filterMap id) :=
  ⟨(c8_decoder_failsoft (fun _ => none) (fun _ => none) (strL "") []).1 rfl,
   (c8_decoder_failsoft (fun _ => none) (fun _ => none) (strL "") []).2.1 rfl,
   (c8_decoder_failsoft (fun _ => some [some (strL "a"), none, some (strL "b")])
      (fun _ => none) (strL "") []).2.2.1 _ rfl⟩

/-- C10: for a non-empty byte input whose filename matches neither extension the
fallback always succeeds: the result is the UTF-8 decode when it succeeds and
the Latin-1 decode otherwise (which never fails), so the UTF-16 attempt and the
post-loop empty return are unreachable. -/
theorem c10_fallback_total (pdfLib : Bytes → Option (List (Option Str)))
    (docxLib : Bytes → Option (List Str)) (filename : Str) (data : Bytes)
    (_hne : data ≠ [])
    (h1 : trailsWith (lowerCL filename) (strL ".pdf") = false)
    (h2 : trailsWith (lowerCL filename) (strL ".docx") = false) :
    guessText pdfLib docxLib filename data =
      (match decodeUtf8 data with
       | some s => s
       | none => decodeLatin1 data) := by
  have h3 : guessText pdfLib docxLib filename data = fallbackDecode data := by
    simp [guessText, h1, h2]
  rw [h3]
  cases hu : decodeUtf8 data with
  | some s => simp [fallbackDecode, decodeLoop, tryDecode, hu]
  | none => simp [fallbackDecode, decodeLoop, tryDecode, hu]

/-- C10 witness: the byte 0xFF is invalid UTF-8 and decodes via Latin-1. -/
theorem c10_fallback_total_witness :
    guessText (fun _ => none) (fun _ => none) (strL "x.txt") ([0xff] : Bytes) =
      (match decodeUtf8 ([0xff] : Bytes) with
       | some s => s
       | none => decodeLatin1 ([0xff] : Bytes)) :=
  c10_fallback_total (fun _ => none) (fun _ => none) (strL "x.txt") ([0xff] : Bytes)
    (by decide) (by decide) (by decide)

/-- C3 (counterexample): a single-space upload under a `.txt` name has non-empty
bytes and decodes to the non-empty text " ", yet the upload operation errors
(the source also rejects text that merely strips to empty). -/
theorem c3_whitespace_text_cex :
    uploadDocument (fun _ => none) (fun _ => none) (strL "notes.txt") ([32] : Bytes)
      = Except.error "Could not extract text from file. Supported: PDF, DOCX, TXT" ∧
    ([32] : Bytes) ≠ [] ∧
    guessText (fun _ => none) (fun _ => none) (strL "notes.txt") ([32] : Bytes) ≠ [] := by
  refine ⟨rfl, by decide, by decide⟩

/-- C3 (amended): the upload operation errors exactly when the byte buffer is
empty or the decoded text is empty after stripping whitespace; in every other
case it returns the answer mapping and synopsis. -/
theorem c3_upload_error_iff_amended (pdfLib : Bytes → Option (List (Option Str)))
    (docxLib : Bytes → Option (List Str)) (filename : Str) (data : Bytes) :
    ((∃ e, uploadDocument pdfLib docxLib filename data = Except.error e) ↔
      data = [] ∨ stripWS (guessText pdfLib docxLib filename data) = []) ∧
    (data ≠ [] → stripWS (guessText pdfLib docxLib filename data) ≠ [] →
      uploadDocument pdfLib docxLib filename data =
        Except.ok (extractAnswersFromText (guessText pdfLib docxLib filename data))) := by
  constructor
  · by_cases hd : data = []
    · simp [uploadDocument, hd]
    · by_cases ht : guessText pdfLib docxLib filename data = [] ∨
          stripWS (guessText pdfLib docxLib filename data) = []
      · have hs : stripWS (guessText pdfLib docxLib filename data) = [] := by
          rcases ht with h | h
          · rw [h]; rfl
          · exact h
        simp [uploadDocument, hd, ht, hs]
      · have hs : stripWS (guessText pdfLib docxLib filename data) ≠ [] :=
          fun h => ht (Or.inr h)
        have h0 : guessText pdfLib docxLib filename data ≠ [] :=
          fun h => ht (Or.inl h)
        simp [uploadDocument, hd, ht, hs, h0]
  · intro hd hs
    have ht : ¬(guessText pdfLib docxLib filename data = [] ∨
        stripWS (guessText pdfLib docxLib filename data) = []) := by
      rintro (h | h)
      · exact hs (by rw [h]; rfl)
      · exact hs h
    simp [uploadDocument, hd, ht]

/-- C3 (amended) witness: a one-byte "h" upload succeeds with the extracted
answers. -/
theorem c3_upload_error_iff_amended_witness :
    uploadDocument (fun _ => none) (fun _ => none) (strL "a.txt") ([104] : Bytes)
      = Except.ok (extractAnswersFromText
          (guessText (fun _ => none) (fun _ => none) (strL "a.txt") ([104] : Bytes))) :=
  (c3_upload_error_iff_amended _ _ _ _).2 (by decide) (by decide)
